import Mathlib

/-!
Verification development for the QEMU crypto TLS session layer
(crypto/tlssession.c, CONFIG_GNUTLS branch).

The session code orchestrates an external TLS engine (gnutls).  The engine
and the other external collaborators (authorization policy, transport
callbacks, wall clock) are modelled as oracle inputs: each definition below
embeds the control flow of one C function, with every external call's
outcome supplied as an explicit argument.  Machine-level details that the
claims do not touch (byte buffers, printf formatting of error messages) are
elided; error messages become constructors of explicit error types, one per
error_setg site in the source.
-/

/-- QCryptoTLSCredsEndpoint: client or server role. -/
inductive Endpoint
  | client
  | server
deriving DecidableEq

/-- The credential object variants dispatched on in qcrypto_tls_session_new
(TYPE_QCRYPTO_TLS_CREDS_ANON / _PSK / _X509, plus the fallthrough case of an
unrecognized credentials type). -/
inductive CredsVariant
  | anon
  | psk
  | x509
  | unsupported
deriving DecidableEq

/-- The fields of QCryptoTLSCreds that tlssession.c reads. -/
structure Creds where
  endpoint : Endpoint
  variant : CredsVariant
  priority : Option String
  verifyPeer : Bool

/-- struct QCryptoTLSSession, with the gnutls handle and the caller context
pointer elided.  writeFunc and readFunc record whether the corresponding
callback pointer is non-NULL.  rerr and werr hold the detail string of the
Error object captured in each direction's slot (none = NULL). -/
structure Session where
  creds : Creds
  hostname : Option String
  authzid : Option String
  handshakeComplete : Bool
  writeFunc : Bool
  readFunc : Bool
  peername : Option String
  rerr : Option String
  werr : Option String
  requireThreadSafety : Bool
  lockEnabled : Bool

/-- The session state built by the g_new0 + field-copy prologue of
qcrypto_tls_session_new (lines 171-185 of tlssession.c). -/
def mkSession (creds : Creds) (hostname authzid : Option String) : Session :=
  { creds := creds
    hostname := hostname
    authzid := authzid
    handshakeComplete := false
    writeFunc := false
    readFunc := false
    peername := none
    rerr := none
    werr := none
    requireThreadSafety := false
    lockEnabled := false }

/-- Results of the gnutls calls made during session construction:
gnutls_init, gnutls_priority_set_direct, gnutls_credentials_set.
A negative value is a failure, as in the C API. -/
structure NewOracle where
  initRet : Int
  prioRet : Int
  credSetRet : Int

/-- One constructor per error_setg site in qcrypto_tls_session_new. -/
inductive NewErr
  | credsEndpointMismatch
  | engineInitFailed
  | prioritySetFailed (prio : String)
  | credentialsSetFailed
  | unsupportedCredsType
deriving DecidableEq

/-- Build-configured default priority string.  The constant is configured at
build time outside src/; its value is irrelevant to every claim. -/
def CONFIG_TLS_PRIORITY : String := r"NORMAL"

def TLS_PRIORITY_ADDITIONAL_ANON : String := r"+ANON-DH"

def TLS_PRIORITY_ADDITIONAL_PSK : String := r"+ECDHE-PSK:+DHE-PSK:+PSK"

/-- qcrypto_tls_session_new (lines 161-321).  Returns the constructed
session or the error raised, paired with a Bool recording whether
gnutls_init was invoked (i.e. whether an engine handle allocation was
attempted).  Every goto error path frees the partial session, so an error
result carries no session. -/
def qcrypto_tls_session_new (creds : Creds) (hostname authzid : Option String)
    (endpoint : Endpoint) (o : NewOracle) : Except NewErr Session × Bool :=
  let session := mkSession creds hostname authzid
  if creds.endpoint ≠ endpoint then
    (Except.error NewErr.credsEndpointMismatch, false)
  else if o.initRet < 0 then
    (Except.error NewErr.engineInitFailed, true)
  else
    match creds.variant with
    | CredsVariant.anon =>
      let prio :=
        match creds.priority with
        | some p => p ++ r":" ++ TLS_PRIORITY_ADDITIONAL_ANON
        | none => CONFIG_TLS_PRIORITY ++ r":" ++ TLS_PRIORITY_ADDITIONAL_ANON
      if o.prioRet < 0 then (Except.error (NewErr.prioritySetFailed prio), true)
      else if o.credSetRet < 0 then (Except.error NewErr.credentialsSetFailed, true)
      else (Except.ok session, true)
    | CredsVariant.psk =>
      let prio :=
        match creds.priority with
        | some p => p ++ r":" ++ TLS_PRIORITY_ADDITIONAL_PSK
        | none => CONFIG_TLS_PRIORITY ++ r":" ++ TLS_PRIORITY_ADDITIONAL_PSK
      if o.prioRet < 0 then (Except.error (NewErr.prioritySetFailed prio), true)
      else if o.credSetRet < 0 then (Except.error NewErr.credentialsSetFailed, true)
      else (Except.ok session, true)
    | CredsVariant.x509 =>
      let prio :=
        match creds.priority with
        | some p => p
        | none => CONFIG_TLS_PRIORITY
      if o.prioRet < 0 then (Except.error (NewErr.prioritySetFailed prio), true)
      else if o.credSetRet < 0 then (Except.error NewErr.credentialsSetFailed, true)
      else (Except.ok session, true)
    | CredsVariant.unsupported =>
      (Except.error NewErr.unsupportedCredsType, true)

/-- Outcome of gnutls_x509_crt_get_dn after the requery loop that grows the
buffer on GNUTLS_E_SHORT_MEMORY_BUFFER: either the distinguished name, or a
terminal (non-short-buffer) error. -/
inductive DnResult
  | success (dn : String)
  | failure
deriving DecidableEq

/-- Outcome of qauthz_is_allowed_by_id: allowed, denied, or the query
itself raised an error. -/
inductive AuthzResult
  | allow
  | deny
  | failed (m : String)
deriving DecidableEq

/-- The status bit mask produced by gnutls_certificate_verify_peers2,
decomposed into the bits the code tests plus a flag for any other bit. -/
structure VerifyStatus where
  invalid : Bool
  signerNotFound : Bool
  revoked : Bool
  insecureAlgorithm : Bool
  otherBits : Bool
deriving DecidableEq

/-- status != 0 in the C code. -/
def statusSet (st : VerifyStatus) : Bool :=
  st.invalid || st.signerNotFound || st.revoked || st.insecureAlgorithm || st.otherBits

/-- The human-readable reason chosen by the sequence of if statements at
lines 352-371: each test overwrites reason, so the last matching bit wins. -/
inductive VerifyReason
  | invalidCert
  | notTrusted
  | noKnownIssuer
  | revoked
  | insecureAlgorithm
deriving DecidableEq

def statusReason (st : VerifyStatus) : VerifyReason :=
  if st.insecureAlgorithm then VerifyReason.insecureAlgorithm
  else if st.revoked then VerifyReason.revoked
  else if st.signerNotFound then VerifyReason.noKnownIssuer
  else if st.invalid then VerifyReason.notTrusted
  else VerifyReason.invalidCert

/-- One peer certificate as observed through the gnutls x509 calls used by
qcrypto_tls_session_check_certificate.  matchingHostnames is the set of
names gnutls_x509_crt_check_hostname accepts for this certificate. -/
structure Cert where
  initRet : Int
  importRet : Int
  expirationTime : Int
  activationTime : Int
  dn : DnResult
  matchingHostnames : List String
deriving DecidableEq

/-- The environment of one qcrypto_tls_session_check_certificate call:
the wall clock, the gnutls verification results, the peer certificate
chain (none models a NULL return of gnutls_certificate_get_peers), and
the external authorization policy evaluator. -/
structure CheckOracle where
  timeOk : Bool
  now : Int
  verifyRet : Int
  status : VerifyStatus
  certs : Option (List Cert)
  authz : String → String → AuthzResult

/-- gnutls_certificate_get_peers pairs the returned array with its length;
a non-NULL return always carries at least one certificate, so a model
oracle is well formed when its chain, if present, is nonempty. -/
def wfOracle (o : CheckOracle) : Bool :=
  match o.certs with
  | some [] => false
  | _ => true

/-- One constructor per error_setg site in
qcrypto_tls_session_check_certificate and the unexpected-credentials case
of qcrypto_tls_session_check_credentials. -/
inductive CertCheckErr
  | cannotGetTime
  | verifyFailed
  | badStatus (r : VerifyReason)
  | noCertPeers
  | certInitFailed
  | certImportFailed
  | expired
  | notYetActivated
  | cannotGetDn
  | authzQueryFailed (m : String)
  | authzDenied (dn : String)
  | hostnameMismatch (h : String)
  | noHostnameForValidation
  | unexpectedCredType
deriving DecidableEq

/-- The i == 0 block of the loop in qcrypto_tls_session_check_certificate
(lines 411-455): allocate the peername buffer (modelled as the empty
string), fill it with the DN (the requery loop grows the buffer until
gnutls_x509_crt_get_dn stops reporting a short buffer), then run the
authorization check and the hostname check.  Returns ok when the loop is
to continue to the next certificate, together with the updated session. -/
def check_leaf (o : CheckOracle) (s : Session) (c : Cert) :
    Except CertCheckErr Unit × Session :=
  let s1 : Session := { s with peername := some (r"") }
  match c.dn with
  | DnResult.failure => (Except.error CertCheckErr.cannotGetDn, s1)
  | DnResult.success dn =>
    let s2 : Session := { s1 with peername := some dn }
    let authzFail : Option CertCheckErr :=
      match s2.authzid with
      | some az =>
        match o.authz az dn with
        | AuthzResult.failed m => some (CertCheckErr.authzQueryFailed m)
        | AuthzResult.deny => some (CertCheckErr.authzDenied dn)
        | AuthzResult.allow => none
      | none => none
    match authzFail with
    | some e => (Except.error e, s2)
    | none =>
      match s2.hostname with
      | some h =>
        if c.matchingHostnames.contains h then (Except.ok (), s2)
        else (Except.error (CertCheckErr.hostnameMismatch h), s2)
      | none =>
        if s2.creds.endpoint = Endpoint.client then
          (Except.error CertCheckErr.noHostnameForValidation, s2)
        else (Except.ok (), s2)

/-- The for loop of qcrypto_tls_session_check_certificate (lines 381-458),
threading the session (whose peername the leaf iteration assigns).  first
is true exactly when the iteration index i is 0.  The activation-time test
appears twice in the source (lines 401-409), and is kept twice here. -/
def check_certificate_loop (o : CheckOracle) :
    Session → List Cert → Bool → Except CertCheckErr Unit × Session
  | s, [], _ => (Except.ok (), s)
  | s, c :: rest, first =>
    if c.initRet < 0 then (Except.error CertCheckErr.certInitFailed, s)
    else if c.importRet < 0 then (Except.error CertCheckErr.certImportFailed, s)
    else if c.expirationTime < o.now then (Except.error CertCheckErr.expired, s)
    else if c.activationTime > o.now then (Except.error CertCheckErr.notYetActivated, s)
    else if c.activationTime > o.now then (Except.error CertCheckErr.notYetActivated, s)
    else if first then
      match check_leaf o s c with
      | (Except.error e, s2) => (Except.error e, s2)
      | (Except.ok _, s2) => check_certificate_loop o s2 rest false
    else check_certificate_loop o s rest false

/-- qcrypto_tls_session_check_certificate (lines 328-465). -/
def qcrypto_tls_session_check_certificate (s : Session) (o : CheckOracle) :
    Except CertCheckErr Unit × Session :=
  if !o.timeOk then (Except.error CertCheckErr.cannotGetTime, s)
  else if o.verifyRet < 0 then (Except.error CertCheckErr.verifyFailed, s)
  else if statusSet o.status then
    (Except.error (CertCheckErr.badStatus (statusReason o.status)), s)
  else
    match o.certs with
    | none => (Except.error CertCheckErr.noCertPeers, s)
    | some certs => check_certificate_loop o s certs true

/-- qcrypto_tls_session_check_credentials (lines 468-498): dispatch on the
credentials variant; only x509 with verifyPeer runs the certificate check. -/
def qcrypto_tls_session_check_credentials (s : Session) (o : CheckOracle) :
    Except CertCheckErr Unit × Session :=
  match s.creds.variant with
  | CredsVariant.anon => (Except.ok (), s)
  | CredsVariant.psk => (Except.ok (), s)
  | CredsVariant.x509 =>
    if s.creds.verifyPeer then qcrypto_tls_session_check_certificate s o
    else (Except.ok (), s)
  | CredsVariant.unsupported => (Except.error CertCheckErr.unexpectedCredType, s)

/-- qcrypto_tls_session_get_peer_name (lines 724-731): a copy of peername
when set, NULL otherwise. -/
def qcrypto_tls_session_get_peer_name (s : Session) : Option String :=
  s.peername

/-- Return value of gnutls_record_send / gnutls_record_recv /
gnutls_handshake / gnutls_bye, abstracted to the cases the code tests:
a non-negative count, GNUTLS_E_AGAIN, GNUTLS_E_INTERRUPTED,
GNUTLS_E_PREMATURE_TERMINATION, or any other negative code. -/
inductive EngineRet
  | ok (n : Nat)
  | eAgain
  | eInterrupted
  | ePremature
  | eOther
deriving DecidableEq

/-- Observable outcome of one engine call: its return value, plus the
contents the two error slots hold when the call returns (the transport
bridge callbacks invoked from inside the engine rewrite the slots). -/
structure EngineEffect where
  ret : EngineRet
  werr : Option String
  rerr : Option String

/-- A read/write result as returned to the caller:
QCRYPTO_TLS_SESSION_ERR_BLOCK, -1, or a byte count. -/
inductive IORet
  | block
  | fail
  | cnt (n : Nat)
deriving DecidableEq

/-- An error surfaced through errp: a transport error propagated from a
direction's slot, or the generic engine message of the failing call. -/
inductive SurfacedErr
  | transport (detail : String)
  | protocolWrite
  | protocolRead
  | handshakeProto (detail : Option String)
  | byeProto (detail : Option String)
deriving DecidableEq

/-- qcrypto_tls_session_write (lines 513-548): lock around
gnutls_record_send when lockEnabled, then translate the result, preferring
the captured werr over the generic engine message and clearing the slot
when it is surfaced.  Returns (result, errp output, updated session). -/
def qcrypto_tls_session_write (s0 : Session) (e : EngineEffect) :
    IORet × Option SurfacedErr × Session :=
  let s : Session := { s0 with werr := e.werr, rerr := e.rerr }
  match e.ret with
  | EngineRet.ok n => (IORet.cnt n, none, s)
  | EngineRet.eAgain => (IORet.block, none, s)
  | _ =>
    match s.werr with
    | some d => (IORet.fail, some (SurfacedErr.transport d), { s with werr := none })
    | none => (IORet.fail, some SurfacedErr.protocolWrite, s)

/-- The terminal-failure branch of qcrypto_tls_session_read
(lines 576-585): propagate rerr if captured, else the generic message. -/
def readFailurePath (s : Session) : IORet × Option SurfacedErr × Session :=
  match s.rerr with
  | some d => (IORet.fail, some (SurfacedErr.transport d), { s with rerr := none })
  | none => (IORet.fail, some SurfacedErr.protocolRead, s)

/-- qcrypto_tls_session_read (lines 551-590): like write, but
GNUTLS_E_PREMATURE_TERMINATION with gracefulTermination set returns 0. -/
def qcrypto_tls_session_read (s0 : Session) (graceful : Bool) (e : EngineEffect) :
    IORet × Option SurfacedErr × Session :=
  let s : Session := { s0 with werr := e.werr, rerr := e.rerr }
  match e.ret with
  | EngineRet.ok n => (IORet.cnt n, none, s)
  | EngineRet.eAgain => (IORet.block, none, s)
  | EngineRet.ePremature => if graceful then (IORet.cnt 0, none, s) else readFailurePath s
  | _ => readFailurePath s

/-- QCryptoTLSSessionHandshakeStatus. -/
inductive HandshakeStatus
  | complete
  | sending
  | recving
  | failed
deriving DecidableEq

/-- Post-handshake engine queries: whether the negotiated parameters match
the gnutls bug 1717 signature (TLS1.3 with a cipher other than
CHACHA20-POLY1305), and the gnutls_record_get_direction result. -/
structure HandshakeEnv where
  workaroundNeeded : Bool
  sendDirection : Bool

/-- qcrypto_tls_session_handshake (lines 600-662).  On success it may
enable the concurrency workaround (one-time decision) and always sets
handshakeComplete.  On terminal failure the captured rerr (preferred) or
werr detail is folded into the message and both slots are cleared. -/
def qcrypto_tls_session_handshake (s0 : Session) (e : EngineEffect)
    (env : HandshakeEnv) : HandshakeStatus × Option SurfacedErr × Session :=
  let s : Session := { s0 with werr := e.werr, rerr := e.rerr }
  match e.ret with
  | EngineRet.ok _ =>
    let s :=
      if s.requireThreadSafety && env.workaroundNeeded then
        { s with lockEnabled := true }
      else s
    (HandshakeStatus.complete, none, { s with handshakeComplete := true })
  | EngineRet.eAgain =>
    ((if env.sendDirection then HandshakeStatus.sending else HandshakeStatus.recving), none, s)
  | EngineRet.eInterrupted =>
    ((if env.sendDirection then HandshakeStatus.sending else HandshakeStatus.recving), none, s)
  | _ =>
    let detail : Option String :=
      match s.rerr with
      | some d => some d
      | none => s.werr
    (HandshakeStatus.failed, some (SurfacedErr.handshakeProto detail),
      { s with rerr := none, werr := none })

/-- QCryptoTLSSessionByeStatus. -/
inductive ByeStatus
  | complete
  | sending
  | recving
  | failed
deriving DecidableEq

/-- qcrypto_tls_session_bye (lines 665-705).  A session that never
completed its handshake returns COMPLETE without touching the engine. -/
def qcrypto_tls_session_bye (s0 : Session) (e : EngineEffect)
    (env : HandshakeEnv) : ByeStatus × Option SurfacedErr × Session :=
  if !s0.handshakeComplete then (ByeStatus.complete, none, s0)
  else
    let s : Session := { s0 with werr := e.werr, rerr := e.rerr }
    match e.ret with
    | EngineRet.ok _ => (ByeStatus.complete, none, s)
    | EngineRet.eAgain =>
      ((if env.sendDirection then ByeStatus.sending else ByeStatus.recving), none, s)
    | EngineRet.eInterrupted =>
      ((if env.sendDirection then ByeStatus.sending else ByeStatus.recving), none, s)
    | _ =>
      let detail : Option String :=
        match s.rerr with
        | some d => some d
        | none => s.werr
      (ByeStatus.failed, some (SurfacedErr.byeProto detail),
        { s with rerr := none, werr := none })

/-- Modelled from the spec: the distinguished would-block signal of the
callback contract, QCRYPTO_TLS_SESSION_ERR_BLOCK, declared in the
crypto/tlssession.h header which is not under src/. -/
def QCRYPTO_TLS_SESSION_ERR_BLOCK : Int := -2

/-- One invocation of a caller transport callback: its integer return and
the error detail it stores through its errp argument into the slot. -/
structure CbRun where
  ret : Int
  err : Option String
deriving DecidableEq

/-- What qcrypto_tls_session_push / _pull hand back to the engine:
-1 with errno EAGAIN, -1 with errno EIO, or the byte count. -/
inductive XferRet
  | eagain
  | eio
  | cnt (n : Nat)
deriving DecidableEq

/-- Data flow of qcrypto_tls_session_push (lines 87-120): with no
writeFunc installed, EIO without touching the slot; otherwise the slot is
cleared, the callback runs (leaving cb.err in the slot), and the return is
translated.  Returns (engine-visible result, new werr slot). -/
def qcrypto_tls_session_push (installed : Bool) (werr : Option String)
    (cb : CbRun) : XferRet × Option String :=
  if !installed then (XferRet.eio, werr)
  else
    let werr := cb.err
    if cb.ret = QCRYPTO_TLS_SESSION_ERR_BLOCK then (XferRet.eagain, werr)
    else if cb.ret < 0 then (XferRet.eio, werr)
    else (XferRet.cnt cb.ret.toNat, werr)

/-- Data flow of qcrypto_tls_session_pull (lines 123-156), symmetric to
push with the read slot. -/
def qcrypto_tls_session_pull (installed : Bool) (rerr : Option String)
    (cb : CbRun) : XferRet × Option String :=
  if !installed then (XferRet.eio, rerr)
  else
    let rerr := cb.err
    if cb.ret = QCRYPTO_TLS_SESSION_ERR_BLOCK then (XferRet.eagain, rerr)
    else if cb.ret < 0 then (XferRet.eio, rerr)
    else (XferRet.cnt cb.ret.toNat, rerr)

/-- Direction of a transport bridge call. -/
inductive Dir
  | rd
  | wr
deriving DecidableEq

/-- The engine primitives the session invokes. -/
inductive EngineOp
  | recordSend
  | recordRecv
  | handshakeCall
  | byeCall
deriving DecidableEq

/-- Events of the lock/engine/callback traces: acquiring or releasing the
concurrency guard, engine code running, clearing a direction's error slot,
invoking an external transport callback. -/
inductive Ev
  | acquire
  | release
  | engine (op : EngineOp)
  | clearErr (d : Dir)
  | callback (d : Dir)
deriving DecidableEq

/-- Control trace of qcrypto_tls_session_push (lines 87-120), in source
order: missing callback returns at once; otherwise unlock when lockEnabled,
clear werr, invoke the callback, relock when lockEnabled. -/
def pushEvents (writeFuncInstalled lockEnabled : Bool) : List Ev :=
  if !writeFuncInstalled then []
  else
    (if lockEnabled then [Ev.release] else [])
      ++ [Ev.clearErr Dir.wr, Ev.callback Dir.wr]
      ++ (if lockEnabled then [Ev.acquire] else [])

/-- Control trace of qcrypto_tls_session_pull (lines 123-156), in source
order: missing callback returns at once; otherwise clear rerr, unlock when
lockEnabled, invoke the callback, relock when lockEnabled. -/
def pullEvents (readFuncInstalled lockEnabled : Bool) : List Ev :=
  if !readFuncInstalled then []
  else
    [Ev.clearErr Dir.rd]
      ++ (if lockEnabled then [Ev.release] else [])
      ++ [Ev.callback Dir.rd]
      ++ (if lockEnabled then [Ev.acquire] else [])

/-- Trace of the transport bridge calls one engine primitive makes while
it runs: each bridge call's own trace followed by the engine resuming. -/
def bridgeEvents (op : EngineOp) (wf rf le : Bool) : List Dir → List Ev
  | [] => []
  | d :: rest =>
    (match d with
     | Dir.wr => pushEvents wf le
     | Dir.rd => pullEvents rf le)
      ++ (Ev.engine op :: bridgeEvents op wf rf le rest)

/-- Trace of one engine primitive invocation: the engine starts running,
then performs its bridge calls. -/
def engineCallEvents (op : EngineOp) (bridge : List Dir) (wf rf le : Bool) : List Ev :=
  Ev.engine op :: bridgeEvents op wf rf le bridge

/-- Control trace of qcrypto_tls_session_write (lines 513-529): lock when
lockEnabled, run gnutls_record_send, unlock when lockEnabled. -/
def writeEvents (bridge : List Dir) (wf rf le : Bool) : List Ev :=
  (if le then [Ev.acquire] else [])
    ++ engineCallEvents EngineOp.recordSend bridge wf rf le
    ++ (if le then [Ev.release] else [])

/-- Control trace of qcrypto_tls_session_read (lines 551-568). -/
def readEvents (bridge : List Dir) (wf rf le : Bool) : List Ev :=
  (if le then [Ev.acquire] else [])
    ++ engineCallEvents EngineOp.recordRecv bridge wf rf le
    ++ (if le then [Ev.release] else [])

/-- Control trace of qcrypto_tls_session_handshake (lines 600-605): the
gnutls_handshake call is made with no lock manipulation around it. -/
def handshakeEvents (bridge : List Dir) (wf rf le : Bool) : List Ev :=
  engineCallEvents EngineOp.handshakeCall bridge wf rf le

/-- Control trace of qcrypto_tls_session_bye (lines 665-681): nothing if
the handshake never completed; otherwise lock when lockEnabled, run
gnutls_bye, unlock when lockEnabled. -/
def byeEvents (hc : Bool) (bridge : List Dir) (wf rf le : Bool) : List Ev :=
  if !hc then []
  else
    (if le then [Ev.acquire] else [])
      ++ engineCallEvents EngineOp.byeCall bridge wf rf le
      ++ (if le then [Ev.release] else [])

/-- Lock state after a trace, starting from the given state. -/
def lockAfter : Bool → List Ev → Bool
  | l, [] => l
  | _, Ev.acquire :: t => lockAfter true t
  | _, Ev.release :: t => lockAfter false t
  | l, Ev.engine _ :: t => lockAfter l t
  | l, Ev.clearErr _ :: t => lockAfter l t
  | l, Ev.callback _ :: t => lockAfter l t

/-- The guard discipline checker: along the trace, engine code must only
run with the guard held, and external callbacks must only run with the
guard released. -/
def guardOk : Bool → List Ev → Bool
  | _, [] => true
  | _, Ev.acquire :: t => guardOk true t
  | _, Ev.release :: t => guardOk false t
  | l, Ev.engine _ :: t => l && guardOk l t
  | l, Ev.clearErr _ :: t => guardOk l t
  | l, Ev.callback _ :: t => !l && guardOk l t

/-- Whichever of clearing an error slot and releasing the guard happens
first in a trace: true if a clear comes first (or neither occurs). -/
def clearsBeforeRelease : List Ev → Bool
  | [] => true
  | Ev.clearErr _ :: _ => true
  | Ev.release :: _ => false
  | _ :: t => clearsBeforeRelease t

/-- Except projection used by the claims: did the call report an error. -/
def exceptFailed {ε α : Type} : Except ε α → Bool
  | Except.error _ => true
  | Except.ok _ => false

/-- Concrete x509 client credentials with peer verification enabled. -/
def x509ClientCreds : Creds :=
  { endpoint := Endpoint.client
    variant := CredsVariant.x509
    priority := none
    verifyPeer := true }

/-- Client session with a hostname configured and no authz identity. -/
def c1Sess : Session := mkSession x509ClientCreds (some (r"example.com")) none

/-- A valid leaf certificate whose DN extraction succeeds but which matches
no hostname. -/
def c1Cert : Cert :=
  { initRet := 0
    importRet := 0
    expirationTime := 100
    activationTime := 0
    dn := DnResult.success (r"CN=peer")
    matchingHostnames := [] }

/-- Oracle under which every check preceding the hostname comparison
passes. -/
def c1Oracle : CheckOracle :=
  { timeOk := true
    now := 50
    verifyRet := 0
    status := { invalid := false, signerNotFound := false, revoked := false,
                insecureAlgorithm := false, otherBits := false }
    certs := some [c1Cert]
    authz := fun _ _ => AuthzResult.allow }

/-- Client x509 session with verification enabled and no hostname. -/
def c2Sess : Session := mkSession x509ClientCreds none none

theorem lockAfter_append (xs ys : List Ev) (l : Bool) :
    lockAfter l (xs ++ ys) = lockAfter (lockAfter l xs) ys := by
  induction xs generalizing l with
  | nil => simp [lockAfter]
  | cons x t ih => cases x <;> simp [lockAfter, ih]

theorem guardOk_append (xs ys : List Ev) (l : Bool) :
    guardOk l (xs ++ ys) = (guardOk l xs && guardOk (lockAfter l xs) ys) := by
  induction xs generalizing l with
  | nil => simp [guardOk, lockAfter]
  | cons x t ih => cases x <;> simp [guardOk, lockAfter, ih, Bool.and_assoc]

theorem pushEvents_guard (wf : Bool) :
    guardOk true (pushEvents wf true) = true ∧
    lockAfter true (pushEvents wf true) = true := by
  cases wf <;> exact (by decide)

theorem pullEvents_guard (rf : Bool) :
    guardOk true (pullEvents rf true) = true ∧
    lockAfter true (pullEvents rf true) = true := by
  cases rf <;> exact (by decide)

theorem bridgeEvents_guard (op : EngineOp) (wf rf : Bool) (bridge : List Dir) :
    guardOk true (bridgeEvents op wf rf true bridge) = true ∧
    lockAfter true (bridgeEvents op wf rf true bridge) = true := by
  induction bridge with
  | nil => exact (by simp [bridgeEvents, guardOk, lockAfter])
  | cons d rest ih =>
    cases d
    case rd =>
      have h := pullEvents_guard rf
      constructor
      · simp [bridgeEvents, guardOk_append, h.1, h.2, guardOk, ih.1]
      · simp [bridgeEvents, lockAfter_append, h.2, lockAfter, ih.2]
    case wr =>
      have h := pushEvents_guard wf
      constructor
      · simp [bridgeEvents, guardOk_append, h.1, h.2, guardOk, ih.1]
      · simp [bridgeEvents, lockAfter_append, h.2, lockAfter, ih.2]

theorem engineCallEvents_guard (op : EngineOp) (wf rf : Bool) (bridge : List Dir) :
    guardOk true (engineCallEvents op bridge wf rf true) = true ∧
    lockAfter true (engineCallEvents op bridge wf rf true) = true := by
  have h := bridgeEvents_guard op wf rf bridge
  exact ⟨by simp [engineCallEvents, guardOk, h.1], by simp [engineCallEvents, lockAfter, h.2]⟩

/-- C3 counterexample: the claim says that while lock_enabled is true every
engine-touching operation, the handshake step included, performs its engine
call holding the guard.  The trace of a handshake step with lockEnabled
true begins with engine code running while the guard is not held, so the
guard discipline checker rejects it. -/
theorem handshake_engine_call_without_guard :
    guardOk false (handshakeEvents [] true true true) = false := by decide

/-- C3 amended: while lock_enabled is true, the write, read and bye steps
run their engine call with the guard held and release it for the duration
of each external transport callback (guardOk accepts their traces for every
bridge-call sequence); the handshake step however invokes the engine first
thing, without acquiring the guard. -/
theorem guard_serializes_write_read_bye :
    ∀ (bridge : List Dir) (wf rf : Bool),
    guardOk false (writeEvents bridge wf rf true) = true ∧
    guardOk false (readEvents bridge wf rf true) = true ∧
    guardOk false (byeEvents true bridge wf rf true) = true ∧
    List.head? (handshakeEvents bridge wf rf true) =
      some (Ev.engine EngineOp.handshakeCall) := by
  intro bridge wf rf
  have hs := bridgeEvents_guard EngineOp.recordSend wf rf bridge
  have hr := bridgeEvents_guard EngineOp.recordRecv wf rf bridge
  have hb := bridgeEvents_guard EngineOp.byeCall wf rf bridge
  refine ⟨?_, ?_, ?_, ?_⟩
  · simp [writeEvents, engineCallEvents, guardOk_append, lockAfter_append,
      guardOk, lockAfter, hs.1, hs.2]
  · simp [readEvents, engineCallEvents, guardOk_append, lockAfter_append,
      guardOk, lockAfter, hr.1, hr.2]
  · simp [byeEvents, engineCallEvents, guardOk_append, lockAfter_append,
      guardOk, lockAfter, hb.1, hb.2]
  · simp [handshakeEvents, engineCallEvents]

/-- C4 counterexample: the claim says each bridge call clears its error
slot first and only then releases the guard; in the push trace with
lockEnabled true the release comes before the clear. -/
theorem push_releases_guard_before_clearing_slot :
    clearsBeforeRelease (pushEvents true true) = false := by decide

/-- C4 amended: the pull bridge clears its error slot before releasing the
guard, but the push bridge releases the guard first and clears its slot
afterwards; the full traces under lockEnabled are release, clear, callback,
acquire for push and clear, release, callback, acquire for pull. -/
theorem bridge_clear_release_order :
    ∀ le : Bool,
    clearsBeforeRelease (pullEvents true le) = true ∧
    clearsBeforeRelease (pushEvents true le) = !le ∧
    pushEvents true true =
      [Ev.release, Ev.clearErr Dir.wr, Ev.callback Dir.wr, Ev.acquire] ∧
    pullEvents true true =
      [Ev.clearErr Dir.rd, Ev.release, Ev.callback Dir.rd, Ev.acquire] := by
  intro le
  cases le <;> exact (by decide)

/-- C10: a bridge call made while the corresponding callback has not been
installed returns the generic I/O failure to the engine with no callback
invocation, no slot manipulation, and no guard manipulation: its trace is
empty and its data result is EIO with the slot unchanged. -/
theorem bridge_missing_callback_noop_eio :
    ∀ (le : Bool) (w r : Option String) (cb : CbRun),
    pushEvents false le = [] ∧
    pullEvents false le = [] ∧
    qcrypto_tls_session_push false w cb = (XferRet.eio, w) ∧
    qcrypto_tls_session_pull false r cb = (XferRet.eio, r) := by
  intro le w r cb
  cases le <;>
    exact ⟨rfl, rfl, rfl, rfl⟩

/-- C9: the bridge translates the callback outcome: the distinguished
would-block return becomes the EAGAIN retry signal, any other negative
return becomes the generic EIO failure with the captured detail left in the
slot, and a non-negative count passes through unchanged. -/
theorem bridge_outcome_translation :
    ∀ (w r : Option String) (cb : CbRun),
    (cb.ret = QCRYPTO_TLS_SESSION_ERR_BLOCK →
      qcrypto_tls_session_push true w cb = (XferRet.eagain, cb.err) ∧
      qcrypto_tls_session_pull true r cb = (XferRet.eagain, cb.err)) ∧
    (cb.ret < 0 → cb.ret ≠ QCRYPTO_TLS_SESSION_ERR_BLOCK →
      qcrypto_tls_session_push true w cb = (XferRet.eio, cb.err) ∧
      qcrypto_tls_session_pull true r cb = (XferRet.eio, cb.err)) ∧
    (0 ≤ cb.ret →
      qcrypto_tls_session_push true w cb = (XferRet.cnt cb.ret.toNat, cb.err) ∧
      qcrypto_tls_session_pull true r cb = (XferRet.cnt cb.ret.toNat, cb.err)) := by
  intro w r cb
  refine ⟨fun hb => ?_, fun hn hb => ?_, fun hp => ?_⟩
  · constructor <;> simp [qcrypto_tls_session_push, qcrypto_tls_session_pull, hb]
  · constructor <;> simp [qcrypto_tls_session_push, qcrypto_tls_session_pull, hb, hn]
  · have hb : cb.ret ≠ QCRYPTO_TLS_SESSION_ERR_BLOCK := by
      intro h
      rw [h] at hp
      exact absurd hp (by decide)
    have hn : ¬ cb.ret < 0 := not_lt.mpr hp
    constructor <;> simp [qcrypto_tls_session_push, qcrypto_tls_session_pull, hb, hn]

/-- C9 witness: the three translation cases at concrete callback runs. -/
theorem bridge_outcome_translation_witness :
    qcrypto_tls_session_push true (some (r"old")) { ret := -2, err := none } =
      (XferRet.eagain, none) ∧
    qcrypto_tls_session_pull true none { ret := -5, err := some (r"boom") } =
      (XferRet.eio, some (r"boom")) ∧
    qcrypto_tls_session_push true none { ret := 7, err := none } =
      (XferRet.cnt 7, none) := by
  refine ⟨?_, ?_, ?_⟩
  · exact ((bridge_outcome_translation (some (r"old")) none
      { ret := -2, err := none }).1 (by decide)).1
  · exact ((bridge_outcome_translation none none
      { ret := -5, err := some (r"boom") }).2.1 (by decide) (by decide)).2
  · exact ((bridge_outcome_translation none none
      { ret := 7, err := none }).2.2 (by decide)).1

/-- C6: constructing a session whose requested endpoint role differs from
the credential endpoint fails with the configuration error, and
gnutls_init is never invoked, for every credential variant and every
engine oracle. -/
theorem session_new_endpoint_mismatch_fails
    (creds : Creds) (hostname authzid : Option String) (endpoint : Endpoint)
    (o : NewOracle) (h : creds.endpoint ≠ endpoint) :
    qcrypto_tls_session_new creds hostname authzid endpoint o =
      (Except.error NewErr.credsEndpointMismatch, false) := by
  simp [qcrypto_tls_session_new, h]

/-- C6 witness: client credentials requested for the server role. -/
theorem session_new_endpoint_mismatch_fails_witness :
    qcrypto_tls_session_new x509ClientCreds none none Endpoint.server
      { initRet := 0, prioRet := 0, credSetRet := 0 } =
      (Except.error NewErr.credsEndpointMismatch, false) :=
  session_new_endpoint_mismatch_fails x509ClientCreds none none Endpoint.server
    { initRet := 0, prioRet := 0, credSetRet := 0 } (by decide)

/-- C7: handshakeComplete is set exactly when a handshake step returns
COMPLETE and is never reset: the handshake step leaves it equal to its old
value joined with whether the step completed, and write, read and bye
steps leave it unchanged. -/
theorem handshake_complete_monotone :
    ∀ (s : Session) (e : EngineEffect) (env : HandshakeEnv) (g : Bool),
    (qcrypto_tls_session_handshake s e env).2.2.handshakeComplete =
      (s.handshakeComplete ||
        decide ((qcrypto_tls_session_handshake s e env).1 = HandshakeStatus.complete)) ∧
    (qcrypto_tls_session_write s e).2.2.handshakeComplete = s.handshakeComplete ∧
    (qcrypto_tls_session_read s g e).2.2.handshakeComplete = s.handshakeComplete ∧
    (qcrypto_tls_session_bye s e env).2.2.handshakeComplete = s.handshakeComplete := by
  intro s e env g
  obtain ⟨ret, ew, er⟩ := e
  obtain ⟨wn, sd⟩ := env
  refine ⟨?_, ?_, ?_, ?_⟩
  · cases ret <;> cases sd <;>
      cases hrs : s.requireThreadSafety <;> cases wn <;>
      simp [qcrypto_tls_session_handshake, hrs]
  · cases ret <;> cases ew <;>
      simp [qcrypto_tls_session_write]
  · cases ret <;> cases g <;> cases er <;>
      simp [qcrypto_tls_session_read, readFailurePath]
  · cases hc : s.handshakeComplete <;> cases ret <;> cases sd <;> cases er <;>
      simp [qcrypto_tls_session_bye, hc]

/-- C8: a read hitting premature termination of the transport returns 0
and no error when gracefulTermination is set, and returns the failure
result with an error set when it is not. -/
theorem read_premature_termination_graceful_eof :
    ∀ (s : Session) (w rr : Option String),
    (qcrypto_tls_session_read s true
      { ret := EngineRet.ePremature, werr := w, rerr := rr }).1 = IORet.cnt 0 ∧
    (qcrypto_tls_session_read s true
      { ret := EngineRet.ePremature, werr := w, rerr := rr }).2.1 = none ∧
    (qcrypto_tls_session_read s false
      { ret := EngineRet.ePremature, werr := w, rerr := rr }).1 = IORet.fail ∧
    ((qcrypto_tls_session_read s false
      { ret := EngineRet.ePremature, werr := w, rerr := rr }).2.1).isSome = true := by
  intro s w rr
  cases rr <;>
    simp [qcrypto_tls_session_read, readFailurePath]

theorem check_certificate_loop_nonfirst (o : CheckOracle) (certs : List Cert) :
    ∀ s : Session, (check_certificate_loop o s certs false).2 = s := by
  induction certs with
  | nil => intro s; rfl
  | cons c rest ih =>
    intro s
    simp only [check_certificate_loop]
    split_ifs <;> simp_all [ih]

theorem check_leaf_client_no_hostname_fails (o : CheckOracle) (s : Session)
    (c : Cert)
    (hh : s.hostname = none) (hro : s.creds.endpoint = Endpoint.client) :
    exceptFailed (check_leaf o s c).1 = true := by
  cases hdn : c.dn with
  | failure => simp [check_leaf, hdn, exceptFailed]
  | success dn =>
    cases haz : s.authzid with
    | some az =>
      cases hres : o.authz az dn <;>
        simp [check_leaf, hdn, haz, hres, hh, hro, exceptFailed]
    | none => simp [check_leaf, hdn, haz, hh, hro, exceptFailed]

theorem check_certificate_loop_first_errors (o : CheckOracle) (s : Session)
    (c : Cert) (rest : List Cert)
    (hh : s.hostname = none) (hro : s.creds.endpoint = Endpoint.client) :
    exceptFailed (check_certificate_loop o s (c :: rest) true).1 = true := by
  have hleaf := check_leaf_client_no_hostname_fails o s c hh hro
  simp only [check_certificate_loop]
  split_ifs with h1 h2 h3 h4
  · rfl
  · rfl
  · rfl
  · rfl
  · cases hcl : check_leaf o s c with
    | mk r s2 =>
      cases r with
      | error e => simp [hcl, exceptFailed]
      | ok u =>
        rw [hcl] at hleaf
        simp [exceptFailed] at hleaf

/-- C2: a client-role x509 session with peer verification enabled and no
hostname configured is rejected by the credentials check under every
well-formed oracle (gnutls_certificate_get_peers never returns an empty
non-NULL chain); it never returns success. -/
theorem check_credentials_client_no_hostname_rejects
    (s : Session) (o : CheckOracle)
    (hv : s.creds.variant = CredsVariant.x509)
    (hvp : s.creds.verifyPeer = true)
    (hro : s.creds.endpoint = Endpoint.client)
    (hh : s.hostname = none)
    (hwf : wfOracle o = true) :
    exceptFailed (qcrypto_tls_session_check_credentials s o).1 = true := by
  simp only [qcrypto_tls_session_check_credentials, hv, hvp, if_true]
  simp only [qcrypto_tls_session_check_certificate]
  split_ifs with h1 h2 h3
  · rfl
  · rfl
  · rfl
  · cases hc : o.certs with
    | none => rfl
    | some certs =>
      cases certs with
      | nil =>
        rw [wfOracle, hc] at hwf
        exact absurd hwf (by decide)
      | cons c rest =>
        exact check_certificate_loop_first_errors o s c rest hh hro

/-- C2 witness: concrete client session with no hostname, against an
oracle whose every gnutls step succeeds and whose authz allows. -/
theorem check_credentials_client_no_hostname_rejects_witness :
    exceptFailed (qcrypto_tls_session_check_credentials c2Sess c1Oracle).1 = true :=
  check_credentials_client_no_hostname_rejects c2Sess c1Oracle rfl rfl rfl rfl rfl

/-- C1 counterexample: the claim says peer_name is set only after the
authorization and hostname checks pass and stays unset when one fails.  In
this concrete run every step up to the hostname comparison succeeds, the
hostname comparison fails, the check returns an error — yet peername holds
the extracted distinguished name and the accessor returns it. -/
theorem peername_set_despite_failed_checks :
    exceptFailed (qcrypto_tls_session_check_credentials c1Sess c1Oracle).1 = true ∧
    (qcrypto_tls_session_check_credentials c1Sess c1Oracle).2.peername =
      some (r"CN=peer") ∧
    qcrypto_tls_session_get_peer_name
      (qcrypto_tls_session_check_credentials c1Sess c1Oracle).2 =
      some (r"CN=peer") := by
  refine ⟨rfl, rfl, rfl⟩

theorem check_leaf_peername (o : CheckOracle) (s : Session) (c : Cert)
    (dn : String) (hdn : c.dn = DnResult.success dn) :
    (check_leaf o s c).2.peername = some dn := by
  cases haz : s.authzid with
  | some az =>
    cases hres : o.authz az dn <;> cases hh : s.hostname <;>
      simp [check_leaf, hdn, haz, hres, hh] <;> split_ifs <;> simp
  | none =>
    cases hh : s.hostname <;>
      simp [check_leaf, hdn, haz, hh] <;> split_ifs <;> simp

/-- C1 amended: peer_name is set at most once per certificate check, only
while the first (leaf) certificate of an x509 chain is inspected, at the
moment its distinguished name is extracted — before the authorization and
hostname checks run.  Whenever the preliminary steps (clock, chain
verification, status, init/import, validity window) succeed and the DN
extraction yields dn, the session leaves the check with peername = dn and
the accessor returns it, whether or not the authorization and hostname
checks pass. -/
theorem peername_set_at_leaf_dn_extraction
    (s : Session) (o : CheckOracle) (c : Cert) (rest : List Cert) (dn : String)
    (ht : o.timeOk = true)
    (hv : ¬ o.verifyRet < 0)
    (hst : statusSet o.status = false)
    (hc : o.certs = some (c :: rest))
    (hi : ¬ c.initRet < 0)
    (him : ¬ c.importRet < 0)
    (he : ¬ c.expirationTime < o.now)
    (ha : ¬ c.activationTime > o.now)
    (hdn : c.dn = DnResult.success dn) :
    (qcrypto_tls_session_check_certificate s o).2.peername = some dn ∧
    qcrypto_tls_session_get_peer_name
      (qcrypto_tls_session_check_certificate s o).2 = some dn := by
  have hpn := check_leaf_peername o s c dn hdn
  have key : (qcrypto_tls_session_check_certificate s o).2.peername = some dn := by
    simp only [qcrypto_tls_session_check_certificate]
    rw [ht]
    simp [check_certificate_loop, hst, hv, hc, hi, him, he, ha]
    cases hcl : check_leaf o s c with
    | mk rr s2 =>
      rw [hcl] at hpn
      cases rr with
      | error e =>
        simp [hcl]
        simpa using hpn
      | ok u =>
        simp [hcl, check_certificate_loop_nonfirst]
        simpa using hpn
  exact ⟨key, key⟩

/-- C1 amended witness: the amended theorem applied at the concrete session
and oracle of the counterexample. -/
theorem peername_set_at_leaf_dn_extraction_witness :
    (qcrypto_tls_session_check_certificate c1Sess c1Oracle).2.peername =
      some (r"CN=peer") ∧
    qcrypto_tls_session_get_peer_name
      (qcrypto_tls_session_check_certificate c1Sess c1Oracle).2 =
      some (r"CN=peer") :=
  peername_set_at_leaf_dn_extraction c1Sess c1Oracle c1Cert [] (r"CN=peer")
    rfl (by decide) rfl rfl (by decide) (by decide) (by decide) (by decide) rfl
